import Mathlib

/-!
Verification of the DPF C bridge
(`pipeline/distributed_point_function_c_bridge.cc`) of the
privacy-sandbox-aggregation-service repository.

The bridge wraps three operations of a two-party distributed point
function (DPF) library: key generation, evaluation-context creation and
incremental evaluation.  The bridge itself (parsing, status codes,
buffer handling, the prefix-conversion loop, the output-copy loop) is
embedded directly from the source.  The DPF engine it calls
(`DistributedPointFunction::Create`, `GenerateKeys`,
`CreateEvaluationContext`, `EvaluateNext`) is not part of this
repository's sources, so it is modelled from the spec (sections 4.2-4.5
of the design document): a pseudorandom binary-tree expansion with
per-level correction words, keys carrying a root seed, a root control
bit, one correction word per level and a final output correction.

Machine integers are modelled as `Nat`; `uint64` values are naturals
below `2 ^ 64` and the zero extension `absl::uint128(x)` of a `uint64`
is value-preserving, hence the identity on the modelled value.  The
output group (the template instantiation `EvaluateNext<uint64_t>`) is
`ZMod (2 ^ 64)`.  Serialization is out of scope of the spec (an opaque
exact-round-trip codec), so byte buffers are modelled by a tagged wire
type whose decode functions succeed exactly on a buffer produced by the
matching encode.  Fallible allocation (`AllocateCBytes`, `calloc`) is
modelled by an explicit allocation oracle, one index per allocation
site, in source order.
-/

namespace ConvAgg

/-- The output group modulus: `EvaluateNext` is instantiated at
`uint64_t`, so outputs live in the integers mod `2 ^ 64`. -/
abbrev M : Nat := 2 ^ 64

instance : NeZero M := ⟨by norm_num [M]⟩

/-- absl status codes used by the bridge (`absl::StatusCode`). -/
def kOk : Nat := 0

/-- `absl::StatusCode::kInvalidArgument`. -/
def kInvalidArgument : Nat := 3

/-- `absl::StatusCode::kInternal`. -/
def kInternal : Nat := 13

/-- An error crossing the boundary: a `(status_code, message)` pair. -/
structure DpfError where
  code : Nat
  msg : String
deriving DecidableEq

/-- Modelled from the spec: the Parameter Model (section 3).  The bridge
constructs a single-level hierarchy from one `DpfParameters` message, so
the model keeps the domain bit-length; the output group is fixed at
`2 ^ 64` by the bridge (`EvaluateNext<uint64_t>`). -/
structure DpfParameters where
  domain_bits : Nat
deriving DecidableEq

/-- Modelled from the spec: one per-level correction word (section 3):
a seed correction and one control-bit correction per child side. -/
structure CorrectionWord where
  sc : Nat
  tcL : Bool
  tcR : Bool
deriving DecidableEq

/-- Modelled from the spec: a DPF key (section 3): party id, root seed,
root control bit, one correction word per level, and the final
output-group correction. -/
structure DpfKey where
  party : Bool
  root_seed : Nat
  root_control : Bool
  cws : List CorrectionWord
  last_cw : ZMod M
deriving DecidableEq

/-- A node of the evaluation tree: seed and control bit. -/
structure Node where
  s : Nat
  t : Bool
deriving DecidableEq

/-- The external PRG primitive (spec section 4.2): expands a seed into
two child seeds and two child control bits.  Treated as an arbitrary
deterministic function; correctness of the DPF does not depend on its
distribution. -/
structure PRGOut where
  sL : Nat
  tL : Bool
  sR : Nat
  tR : Bool
deriving DecidableEq

/-- A pseudorandom generator: any function from seeds to expansion
blocks. -/
abbrev PRG := Nat → PRGOut

/-- Modelled from the spec: the tree-expansion step at one node
(sections 4.2 and 4.5, glossary).  The PRG block of the seed is split
into two half nodes, the node's control bit is XORed into both child
control bits (section 4.2), and when the control bit is set the level's
correction word is applied (glossary: the control bit "toggles whether a
correction word is applied at a node").  `dir = false` selects the left
child, `dir = true` the right child. -/
def evalStep (prg : PRG) (cw : CorrectionWord) (nd : Node) (dir : Bool) : Node :=
  let e := prg nd.s
  let sPre := if dir then e.sR else e.sL
  let tPre := Bool.xor (if dir then e.tR else e.tL) nd.t
  if nd.t then
    ⟨Nat.xor sPre cw.sc, Bool.xor tPre (if dir then cw.tcR else cw.tcL)⟩
  else
    ⟨sPre, tPre⟩

/-- Modelled from the spec: the per-level correction word computed by
the key generator (section 4.3): the seed correction makes the two
parties' off-path children identical, the control-bit corrections make
the off-path control bits agree and the on-path control bits differ.
`a` is the bit of alpha at this level (the on-path child side). -/
def genCW (prg : PRG) (n0 n1 : Node) (a : Bool) : CorrectionWord :=
  let e0 := prg n0.s
  let e1 := prg n1.s
  { sc := Nat.xor (if a then e0.sL else e0.sR) (if a then e1.sL else e1.sR)
    tcL := Bool.xor (Bool.xor e0.tL e1.tL) a
    tcR := Bool.xor (Bool.xor e0.tR e1.tR) (!a) }

/-- Modelled from the spec: the key generator's walk down alpha's bit
path (section 4.3).  For each level it emits the correction word and
advances both parties' on-path nodes; it returns the correction-word
list and the two final on-path nodes. -/
def genLevels (prg : PRG) : List Bool → Node → Node → List CorrectionWord × Node × Node
  | [], n0, n1 => ([], n0, n1)
  | a :: bs, n0, n1 =>
    ((genCW prg n0 n1 a) ::
        (genLevels prg bs (evalStep prg (genCW prg n0 n1 a) n0 a)
          (evalStep prg (genCW prg n0 n1 a) n1 a)).1,
      (genLevels prg bs (evalStep prg (genCW prg n0 n1 a) n0 a)
        (evalStep prg (genCW prg n0 n1 a) n1 a)).2)

/-- Modelled from the spec: the final scalar correction (section 4.3):
chosen so that combining both parties' final on-path values, sign
adjusted by the control bit, yields exactly beta. -/
def finalCW (beta : Nat) (f0 f1 : Node) : ZMod M :=
  if f1.t then -((beta : ZMod M) - (f0.s : ZMod M) + (f1.s : ZMod M))
  else (beta : ZMod M) - (f0.s : ZMod M) + (f1.s : ZMod M)

/-- The most-significant-first binary representation of `x` on `n`
bits. -/
def toBits (n x : Nat) : List Bool :=
  (List.range n).map (fun i => x.testBit (n - 1 - i))

/-- Modelled from the spec: walking an evaluation path from a node,
applying the matching correction word at each level traversed
(section 4.5). -/
def evalPath (prg : PRG) : List CorrectionWord → List Bool → Node → Node
  | cw :: cws, b :: bs, nd => evalPath prg cws bs (evalStep prg cw nd b)
  | _, _, nd => nd

/-- Modelled from the spec: the per-prefix output at the final level
(section 4.5): the on-path seed interpretation combined, sign adjusted
by the control bit and the party id, with the final scalar correction
from the key. -/
def outVal (party : Bool) (nd : Node) (w : ZMod M) : ZMod M :=
  let v := (nd.s : ZMod M) + (if nd.t then w else 0)
  if party then -v else v

/-- Modelled from the spec: evaluation of one full-depth path from the
root of a key. -/
def evalLeafOut (prg : PRG) (k : DpfKey) (bs : List Bool) : ZMod M :=
  outVal k.party (evalPath prg k.cws bs ⟨k.root_seed, k.root_control⟩) k.last_cw

/-- Modelled from the spec: `DistributedPointFunction::Create` validates
the parameters (section 4.1): the domain bit-length must be positive. -/
def Create (p : DpfParameters) : Except DpfError Unit :=
  if 1 ≤ p.domain_bits then Except.ok ()
  else Except.error ⟨kInvalidArgument, "number of domain bits must be positive"⟩

/-- Modelled from the spec: `GenerateKeys` (section 4.3).  Fails with
`InvalidArgument` when alpha is out of the domain range; otherwise walks
alpha's bit path, producing the shared correction words and the final
correction, and returns the pair of keys (party 0 with root control bit
0, party 1 with root control bit 1).  The two fresh random root seeds
are explicit inputs (sampling made explicit). -/
def GenerateKeys (prg : PRG) (p : DpfParameters) (s0 s1 : Nat) (alpha beta : Nat) :
    Except DpfError (DpfKey × DpfKey) :=
  if alpha < 2 ^ p.domain_bits then
    Except.ok
      (⟨false, s0, false,
          (genLevels prg (toBits p.domain_bits alpha) ⟨s0, false⟩ ⟨s1, true⟩).1,
          finalCW beta (genLevels prg (toBits p.domain_bits alpha) ⟨s0, false⟩ ⟨s1, true⟩).2.1
            (genLevels prg (toBits p.domain_bits alpha) ⟨s0, false⟩ ⟨s1, true⟩).2.2⟩,
        ⟨true, s1, true,
          (genLevels prg (toBits p.domain_bits alpha) ⟨s0, false⟩ ⟨s1, true⟩).1,
          finalCW beta (genLevels prg (toBits p.domain_bits alpha) ⟨s0, false⟩ ⟨s1, true⟩).2.1
            (genLevels prg (toBits p.domain_bits alpha) ⟨s0, false⟩ ⟨s1, true⟩).2.2⟩)
  else Except.error ⟨kInvalidArgument, "alpha must be smaller than the domain size"⟩

/-- Modelled from the spec: the Evaluation Context (section 3): key
reference, current level and the frontier of not-yet-expanded nodes. -/
structure EvaluationContext where
  key : DpfKey
  level : Nat
  frontier : List (List Bool × Node)
deriving DecidableEq

/-- Modelled from the spec: `CreateEvaluationContext` (section 4.4):
validates that the key shape matches the parameters (one correction
word per level) and initializes the frontier to the single root node. -/
def CreateEvaluationContext (p : DpfParameters) (k : DpfKey) :
    Except DpfError EvaluationContext :=
  if k.cws.length = p.domain_bits then
    Except.ok ⟨k, 0, [([], ⟨k.root_seed, k.root_control⟩)]⟩
  else Except.error ⟨kInvalidArgument, "key does not match the given parameters"⟩

/-- Modelled from the spec: `EvaluateNext` (section 4.5), for the
single-level hierarchy the bridge constructs (one checkpoint level equal
to `domain_bits`).  Fails with `InvalidArgument` when the context is
already at the terminal level (section 4.5: "must be reported, not
retried") or when a requested path does not fit the target depth.
Otherwise each requested path is re-derived from the root by repeated
expansion with the stored correction words, in request order and without
deduplication; the context advances to the target level and the frontier
is replaced by exactly the requested nodes. -/
def EvaluateNext (prg : PRG) (p : DpfParameters) (qs : List Nat)
    (ctx : EvaluationContext) :
    Except DpfError (List (ZMod M) × EvaluationContext) :=
  if p.domain_bits ≤ ctx.level then
    Except.error ⟨kInvalidArgument, "this context has already been fully evaluated"⟩
  else if qs.any (fun q => 2 ^ p.domain_bits ≤ q) then
    Except.error ⟨kInvalidArgument, "requested path does not fit the evaluated domain"⟩
  else
    Except.ok
      (qs.map (fun q => evalLeafOut prg ctx.key (toBits p.domain_bits q)),
        ⟨ctx.key, p.domain_bits,
          qs.map (fun q =>
            (toBits p.domain_bits q,
              evalPath prg ctx.key.cws (toBits p.domain_bits q)
                ⟨ctx.key.root_seed, ctx.key.root_control⟩))⟩)

/-! ## The wire model and the bridge functions

The bridge exchanges protocol-buffer messages through `CBytes` buffers.
Serialization is out of scope of the spec (section 2: "an opaque
encode/decode contract" with "exact round-trip decode"), so a buffer's
content is modelled by a tagged wire value: encoding a message tags it,
and each `ParseFromArray` succeeds exactly on a buffer carrying the
matching tag.  `rawW` stands for any buffer that decodes as none of the
expected messages (including a freed buffer). -/

/-- Content of a `CBytes` buffer. -/
inductive Wire where
  | paramsW : DpfParameters → Wire
  | keyW : DpfKey → Wire
  | ctxW : EvaluationContext → Wire
  | rawW : List Nat → Wire
deriving DecidableEq

/-- `DpfParameters::ParseFromArray`. -/
def parseParams : Wire → Option DpfParameters
  | Wire.paramsW p => some p
  | _ => none

/-- `DpfKey::ParseFromArray`. -/
def parseKey : Wire → Option DpfKey
  | Wire.keyW k => some k
  | _ => none

/-- `EvaluationContext::ParseFromArray`. -/
def parseCtx : Wire → Option EvaluationContext
  | Wire.ctxW c => some c
  | _ => none

/-- An allocation oracle: whether the n-th allocation site of a call
(in source order) succeeds.  Models the fallibility of `AllocateCBytes`
(allocation plus `SerializeToArray`) and of `calloc`. -/
abbrev Alloc := Nat → Bool

/-- The oracle of an environment where every allocation succeeds. -/
def allocT : Alloc := fun _ => true

/-- Result of `CGenerateKeys`: the returned status code and the state of
the three out-buffers (`none` = not populated). -/
structure CGenOut where
  status : Nat
  key1 : Option Wire
  key2 : Option Wire
  err : Option String
deriving DecidableEq

/-- Embedding of `CGenerateKeys`
(`distributed_point_function_c_bridge.cc:29-64`): parse the parameters,
create the DPF, generate the keys for `absl::uint128(alpha)` and
`absl::uint128(beta)` (value-preserving zero extensions), then allocate
and serialize each key into its out-buffer.  Allocation site 0 is
`out_key1`, site 1 is `out_key2`. -/
def CGenerateKeys (prg : PRG) (alloc : Alloc) (s0 s1 : Nat) (param : Wire)
    (alpha beta : Nat) : CGenOut :=
  match parseParams param with
  | none => ⟨kInvalidArgument, none, none, some "fail to parse DpfParameter"⟩
  | some parameters =>
    match Create parameters with
    | Except.error e => ⟨e.code, none, none, some e.msg⟩
    | Except.ok _ =>
      match GenerateKeys prg parameters s0 s1 alpha beta with
      | Except.error e => ⟨e.code, none, none, some e.msg⟩
      | Except.ok ks =>
        if alloc 0 then
          if alloc 1 then ⟨kOk, some (Wire.keyW ks.1), some (Wire.keyW ks.2), none⟩
          else ⟨kInternal, some (Wire.keyW ks.1), none, some "fail to copy DpfKey"⟩
        else ⟨kInternal, none, none, some "fail to copy DpfKey"⟩

/-- Result of `CCreateEvaluationContext`: status code and the state of
the two out-buffers. -/
structure CCtxOut where
  status : Nat
  ctx : Option Wire
  err : Option String
deriving DecidableEq

/-- Embedding of `CCreateEvaluationContext`
(`distributed_point_function_c_bridge.cc:66-104`): parse the
parameters, create the DPF, parse the key, create the evaluation
context, then allocate and serialize it (allocation site 0). -/
def CCreateEvaluationContext (alloc : Alloc) (param key : Wire) : CCtxOut :=
  match parseParams param with
  | none => ⟨kInvalidArgument, none, some "fail to parse DpfParameter"⟩
  | some parameters =>
    match Create parameters with
    | Except.error e => ⟨e.code, none, some e.msg⟩
    | Except.ok _ =>
      match parseKey key with
      | none => ⟨kInvalidArgument, none, some "fail to parse DpfKey"⟩
      | some dpf_key =>
        match CreateEvaluationContext parameters dpf_key with
        | Except.error e => ⟨e.code, none, some e.msg⟩
        | Except.ok eval_context =>
          if alloc 0 then ⟨kOk, some (Wire.ctxW eval_context), none⟩
          else ⟨kInternal, none, some "fail to copy EvaluationContext"⟩

/-- The prefix-conversion loop
(`distributed_point_function_c_bridge.cc:122-125`):
`std::vector<absl::uint128> prefixes_128(prefixes_size)` followed by
`for (int i = 0; i < prefixes_size; i++)`.  The element count of a
`std::vector` is unsigned, so a negative `prefixes_size` is converted to
a huge count and construction throws (no `InvalidArgument` return):
modelled as `none`.  The loop counter `i` is a 32-bit `int` compared
against the `int64_t` bound, so for `prefixes_size > INT_MAX`
(`2 ^ 31 - 1`) the increment overflows signed `int` at `i = INT_MAX` —
undefined behavior, no defined result: also modelled as `none`.  For a
size within `[0, INT_MAX]` the loop is total, reads exactly
`prefixes_size` elements and forwards each `absl::uint128(prefixes[i])`
(a value-preserving zero extension) in order, without deduplication. -/
def mkPrefixes (pfn : Nat → Nat) (prefixes_size : Int) : Option (List Nat) :=
  if prefixes_size < 0 then none
  else if 2 ^ 31 - 1 < prefixes_size then none
  else some ((List.range prefixes_size.toNat).map pfn)

/-- Result of `CEvaluateNext64`: status code, state of the in/out
context buffer, the two fields of `CUInt64Vec` (`vec_size` set at
`cc:146`, the array itself), and the error buffer. -/
structure CEvalOut where
  status : Nat
  ctxBuf : Wire
  vecSize : Option Nat
  vec : Option (List Nat)
  err : Option String
deriving DecidableEq

/-- Embedding of `CEvaluateNext64`
(`distributed_point_function_c_bridge.cc:106-156`): parse the
parameters, create the DPF, build the 128-bit prefix vector, parse the
context, run `EvaluateNext<uint64_t>`; on success `free` the old context
buffer, reallocate and serialize the advanced context (allocation
site 0), then `calloc` the output array (site 1) and copy each result
cast to `uint64_t`.  `none` models the crash of the vector constructor
on a negative size; `rawW []` models the freed context buffer left
behind when its reallocation or reserialization fails. -/
def CEvaluateNext64 (prg : PRG) (alloc : Alloc) (param : Wire) (pfn : Nat → Nat)
    (prefixes_size : Int) (mutable_context : Wire) : Option CEvalOut :=
  match parseParams param with
  | none =>
    some ⟨kInvalidArgument, mutable_context, none, none, some "fail to parse DpfParameter"⟩
  | some parameters =>
    match Create parameters with
    | Except.error e => some ⟨e.code, mutable_context, none, none, some e.msg⟩
    | Except.ok _ =>
      match mkPrefixes pfn prefixes_size with
      | none => none
      | some prefixes_128 =>
        match parseCtx mutable_context with
        | none =>
          some ⟨kInvalidArgument, mutable_context, none, none,
            some "fail to parse EvaluationContext"⟩
        | some eval_context =>
          match EvaluateNext prg parameters prefixes_128 eval_context with
          | Except.error e => some ⟨e.code, mutable_context, none, none, some e.msg⟩
          | Except.ok res =>
            if alloc 0 then
              if alloc 1 then
                some ⟨kOk, Wire.ctxW res.2, some res.1.length,
                  some (res.1.map ZMod.val), none⟩
              else
                some ⟨kInternal, Wire.ctxW res.2, some res.1.length, none,
                  some "fail to allocate memory for expanded vector"⟩
            else
              some ⟨kInternal, Wire.rawW [], none, none,
                some "fail to copy EvaluationContext"⟩

/-! ## Correctness lemmas for the modelled DPF core -/

theorem toBits_length (n x : Nat) : (toBits n x).length = n := by
  simp [toBits]

theorem genLevels_cws_length (prg : PRG) :
    ∀ (bs : List Bool) (n0 n1 : Node),
      (genLevels prg bs n0 n1).1.length = bs.length := by
  intro bs
  induction bs with
  | nil => intro n0 n1; simp [genLevels]
  | cons a bs ih => intro n0 n1; simp [genLevels, ih]

theorem evalPath_genLevels_fst (prg : PRG) :
    ∀ (bs : List Bool) (n0 n1 : Node),
      evalPath prg (genLevels prg bs n0 n1).1 bs n0 = (genLevels prg bs n0 n1).2.1 := by
  intro bs
  induction bs with
  | nil => intro n0 n1; simp [genLevels, evalPath]
  | cons a bs ih => intro n0 n1; simp [genLevels, evalPath, ih]

theorem evalPath_genLevels_snd (prg : PRG) :
    ∀ (bs : List Bool) (n0 n1 : Node),
      evalPath prg (genLevels prg bs n0 n1).1 bs n1 = (genLevels prg bs n0 n1).2.2 := by
  intro bs
  induction bs with
  | nil => intro n0 n1; simp [genLevels, evalPath]
  | cons a bs ih => intro n0 n1; simp [genLevels, evalPath, ih]

/-- One key-generation level preserves the on-path control-bit
invariant: the two parties' control bits differ at the child on alpha's
side. -/
theorem evalStep_keep_t (prg : PRG) (n0 n1 : Node) (a : Bool)
    (h : Bool.xor n0.t n1.t = true) :
    Bool.xor (evalStep prg (genCW prg n0 n1 a) n0 a).t
      (evalStep prg (genCW prg n0 n1 a) n1 a).t = true := by
  obtain ⟨s0, t0⟩ := n0
  obtain ⟨s1, t1⟩ := n1
  simp only [Node.t] at h
  cases a <;> cases t0 <;> cases t1 <;>
    simp_all [evalStep, genCW] <;>
    cases (prg s0).tL <;> cases (prg s1).tL <;>
    cases (prg s0).tR <;> cases (prg s1).tR <;> simp_all

/-- The control-bit invariant carried down alpha's whole path. -/
theorem genLevels_t (prg : PRG) :
    ∀ (bs : List Bool) (n0 n1 : Node), Bool.xor n0.t n1.t = true →
      Bool.xor (genLevels prg bs n0 n1).2.1.t (genLevels prg bs n0 n1).2.2.t = true := by
  intro bs
  induction bs with
  | nil => intro n0 n1 h; simpa [genLevels] using h
  | cons a bs ih =>
    intro n0 n1 h
    simpa [genLevels] using
      ih (evalStep prg (genCW prg n0 n1 a) n0 a)
        (evalStep prg (genCW prg n0 n1 a) n1 a) (evalStep_keep_t prg n0 n1 a h)

/-- The final correction makes the two parties' leaf outputs sum to
beta whenever their control bits differ. -/
theorem out_sum (beta : Nat) (f0 f1 : Node) (h : Bool.xor f0.t f1.t = true) :
    outVal false f0 (finalCW beta f0 f1) + outVal true f1 (finalCW beta f0 f1)
      = (beta : ZMod M) := by
  obtain ⟨c0, t0⟩ := f0
  obtain ⟨c1, t1⟩ := f1
  simp only [Node.t] at h
  cases t0 <;> cases t1 <;> simp_all [outVal, finalCW] <;> ring

/-- Point correctness of the modelled core: for any PRG, any root
seeds, any path and any beta, the two generated keys' leaf outputs at
alpha's own path sum to beta in the output group. -/
theorem core_point_correct (prg : PRG) (bs : List Bool) (s0 s1 : Nat) (beta : Nat) :
    evalLeafOut prg
        ⟨false, s0, false, (genLevels prg bs ⟨s0, false⟩ ⟨s1, true⟩).1,
          finalCW beta (genLevels prg bs ⟨s0, false⟩ ⟨s1, true⟩).2.1
            (genLevels prg bs ⟨s0, false⟩ ⟨s1, true⟩).2.2⟩ bs
      + evalLeafOut prg
        ⟨true, s1, true, (genLevels prg bs ⟨s0, false⟩ ⟨s1, true⟩).1,
          finalCW beta (genLevels prg bs ⟨s0, false⟩ ⟨s1, true⟩).2.1
            (genLevels prg bs ⟨s0, false⟩ ⟨s1, true⟩).2.2⟩ bs
      = (beta : ZMod M) := by
  have hf := evalPath_genLevels_fst prg bs ⟨s0, false⟩ ⟨s1, true⟩
  have hs := evalPath_genLevels_snd prg bs ⟨s0, false⟩ ⟨s1, true⟩
  have ht := genLevels_t prg bs ⟨s0, false⟩ ⟨s1, true⟩ (by simp)
  simpa [evalLeafOut, hf, hs] using
    out_sum beta (genLevels prg bs ⟨s0, false⟩ ⟨s1, true⟩).2.1
      (genLevels prg bs ⟨s0, false⟩ ⟨s1, true⟩).2.2 ht

/-- The key handed to one party by the modelled `GenerateKeys` (party 0
gets root seed `s0` and root control bit 0, party 1 gets `s1` and 1;
both share the correction words and the final correction). -/
def keyOfParty (prg : PRG) (db s0 s1 alpha beta : Nat) (b : Bool) : DpfKey :=
  ⟨b, if b then s1 else s0, b,
    (genLevels prg (toBits db alpha) ⟨s0, false⟩ ⟨s1, true⟩).1,
    finalCW beta (genLevels prg (toBits db alpha) ⟨s0, false⟩ ⟨s1, true⟩).2.1
      (genLevels prg (toBits db alpha) ⟨s0, false⟩ ⟨s1, true⟩).2.2⟩

/-- The fresh evaluation context built from a key: level 0, frontier
holding the single root node. -/
def freshCtx (k : DpfKey) : EvaluationContext :=
  ⟨k, 0, [([], ⟨k.root_seed, k.root_control⟩)]⟩

/-- A concrete PRG used to instantiate the theorems on concrete
inputs. -/
def prgDemo : PRG :=
  fun s => ⟨s + 1, Nat.testBit (s + 1) 0, 2 * s + 5, Nat.testBit s 1⟩

theorem generateKeys_ok (prg : PRG) (db s0 s1 alpha beta : Nat)
    (ha : alpha < 2 ^ db) :
    GenerateKeys prg ⟨db⟩ s0 s1 alpha beta
      = Except.ok (keyOfParty prg db s0 s1 alpha beta false,
          keyOfParty prg db s0 s1 alpha beta true) := by
  simp [GenerateKeys, keyOfParty, ha]

theorem keyOfParty_cws_length (prg : PRG) (db s0 s1 alpha beta : Nat) (b : Bool) :
    (keyOfParty prg db s0 s1 alpha beta b).cws.length = db := by
  simp [keyOfParty, genLevels_cws_length, toBits_length]

/-! ## Claim C1 -/

/-- C1: for every valid parameters value and every in-range alpha and
beta, when `CGenerateKeys` succeeds with keys k1 and k2 and each key is
independently run through `CCreateEvaluationContext` and then
`CEvaluateNext64` to the full domain depth at the prefix equal to
alpha's full binary representation, the sum of the two parties' outputs
at that prefix equals beta exactly, modulo the output group
(`2 ^ 64`). -/
theorem C1_point_function_correct (prg : PRG) (s0 s1 db alpha beta : Nat)
    (hdb : 1 ≤ db) (ha : alpha < 2 ^ db) (hb : beta < 2 ^ 64) :
    ∃ (k1 k2 c1 c2 : Wire) (r1 r2 : CEvalOut) (v1 v2 : Nat),
      CGenerateKeys prg allocT s0 s1 (Wire.paramsW ⟨db⟩) alpha beta
          = ⟨kOk, some k1, some k2, none⟩ ∧
        CCreateEvaluationContext allocT (Wire.paramsW ⟨db⟩) k1
          = ⟨kOk, some c1, none⟩ ∧
        CCreateEvaluationContext allocT (Wire.paramsW ⟨db⟩) k2
          = ⟨kOk, some c2, none⟩ ∧
        CEvaluateNext64 prg allocT (Wire.paramsW ⟨db⟩) (fun _ => alpha) 1 c1
          = some r1 ∧
        CEvaluateNext64 prg allocT (Wire.paramsW ⟨db⟩) (fun _ => alpha) 1 c2
          = some r2 ∧
        r1.status = kOk ∧ r2.status = kOk ∧
        r1.vec = some [v1] ∧ r2.vec = some [v2] ∧
        (v1 + v2) % 2 ^ 64 = beta := by
  have hK1 := keyOfParty_cws_length prg db s0 s1 alpha beta false
  have hK2 := keyOfParty_cws_length prg db s0 s1 alpha beta true
  have hnt : ¬ (db ≤ 0) := by omega
  have hgen : CGenerateKeys prg allocT s0 s1 (Wire.paramsW ⟨db⟩) alpha beta
      = ⟨kOk, some (Wire.keyW (keyOfParty prg db s0 s1 alpha beta false)),
          some (Wire.keyW (keyOfParty prg db s0 s1 alpha beta true)), none⟩ := by
    simp [CGenerateKeys, parseParams, Create, hdb, allocT,
      generateKeys_ok prg db s0 s1 alpha beta ha]
  have hctx : ∀ b : Bool,
      CCreateEvaluationContext allocT (Wire.paramsW ⟨db⟩)
          (Wire.keyW (keyOfParty prg db s0 s1 alpha beta b))
        = ⟨kOk, some (Wire.ctxW (freshCtx (keyOfParty prg db s0 s1 alpha beta b))),
            none⟩ := by
    intro b
    simp [CCreateEvaluationContext, parseParams, parseKey, Create, hdb, allocT,
      CreateEvaluationContext, keyOfParty_cws_length, freshCtx]
  have hnext : ∀ b : Bool,
      EvaluateNext prg ⟨db⟩ [alpha] (freshCtx (keyOfParty prg db s0 s1 alpha beta b))
        = Except.ok
            ([evalLeafOut prg (keyOfParty prg db s0 s1 alpha beta b)
                (toBits db alpha)],
              ⟨keyOfParty prg db s0 s1 alpha beta b, db,
                [(toBits db alpha,
                  evalPath prg (keyOfParty prg db s0 s1 alpha beta b).cws
                    (toBits db alpha)
                    ⟨(keyOfParty prg db s0 s1 alpha beta b).root_seed,
                      (keyOfParty prg db s0 s1 alpha beta b).root_control⟩)]⟩) := by
    intro b
    simp [EvaluateNext, freshCtx, hnt, Nat.not_le.mpr ha, Nat.not_le]
  have hev : ∀ b : Bool,
      CEvaluateNext64 prg allocT (Wire.paramsW ⟨db⟩) (fun _ => alpha) 1
          (Wire.ctxW (freshCtx (keyOfParty prg db s0 s1 alpha beta b)))
        = some ⟨kOk,
            Wire.ctxW ⟨keyOfParty prg db s0 s1 alpha beta b, db,
              [(toBits db alpha,
                evalPath prg (keyOfParty prg db s0 s1 alpha beta b).cws
                  (toBits db alpha)
                  ⟨(keyOfParty prg db s0 s1 alpha beta b).root_seed,
                    (keyOfParty prg db s0 s1 alpha beta b).root_control⟩)]⟩,
            some 1,
            some [(evalLeafOut prg (keyOfParty prg db s0 s1 alpha beta b)
                (toBits db alpha)).val],
            none⟩ := by
    intro b
    have hpre : mkPrefixes (fun _ => alpha) 1 = some [alpha] := rfl
    simp [CEvaluateNext64, parseParams, parseCtx, Create, hdb, allocT, hpre,
      hnext b]
  have hsum :
      ((evalLeafOut prg (keyOfParty prg db s0 s1 alpha beta false)
            (toBits db alpha)).val
          + (evalLeafOut prg (keyOfParty prg db s0 s1 alpha beta true)
            (toBits db alpha)).val) % 2 ^ 64 = beta := by
    have hz := core_point_correct prg (toBits db alpha) s0 s1 beta
    have hval : (evalLeafOut prg (keyOfParty prg db s0 s1 alpha beta false)
            (toBits db alpha)
          + evalLeafOut prg (keyOfParty prg db s0 s1 alpha beta true)
            (toBits db alpha)).val = ((beta : ZMod M)).val := by
      rw [show evalLeafOut prg (keyOfParty prg db s0 s1 alpha beta false)
            (toBits db alpha)
          + evalLeafOut prg (keyOfParty prg db s0 s1 alpha beta true)
            (toBits db alpha) = (beta : ZMod M) by
        simpa [keyOfParty] using hz]
    rw [ZMod.val_add] at hval
    rw [ZMod.val_natCast] at hval
    calc ((evalLeafOut prg (keyOfParty prg db s0 s1 alpha beta false)
            (toBits db alpha)).val
          + (evalLeafOut prg (keyOfParty prg db s0 s1 alpha beta true)
            (toBits db alpha)).val) % 2 ^ 64
        = beta % M := hval
      _ = beta := Nat.mod_eq_of_lt hb
  exact ⟨_, _, _, _, _, _, _, _, hgen, hctx false, hctx true, hev false, hev true,
    rfl, rfl, rfl, rfl, hsum⟩

/-- Witness for C1 at concrete inputs: domain of 2 bits, alpha = 2,
beta = 7, root seeds 5 and 9, the demo PRG. -/
theorem C1_point_function_correct_witness :
    (1 ≤ 2 ∧ 2 < 2 ^ 2 ∧ 7 < 2 ^ 64) ∧
      (∃ (k1 k2 c1 c2 : Wire) (r1 r2 : CEvalOut) (v1 v2 : Nat),
        CGenerateKeys prgDemo allocT 5 9 (Wire.paramsW ⟨2⟩) 2 7
            = ⟨kOk, some k1, some k2, none⟩ ∧
          CCreateEvaluationContext allocT (Wire.paramsW ⟨2⟩) k1
            = ⟨kOk, some c1, none⟩ ∧
          CCreateEvaluationContext allocT (Wire.paramsW ⟨2⟩) k2
            = ⟨kOk, some c2, none⟩ ∧
          CEvaluateNext64 prgDemo allocT (Wire.paramsW ⟨2⟩) (fun _ => 2) 1 c1
            = some r1 ∧
          CEvaluateNext64 prgDemo allocT (Wire.paramsW ⟨2⟩) (fun _ => 2) 1 c2
            = some r2 ∧
          r1.status = kOk ∧ r2.status = kOk ∧
          r1.vec = some [v1] ∧ r2.vec = some [v2] ∧
          (v1 + v2) % 2 ^ 64 = 7) :=
  ⟨⟨by decide, by decide, by norm_num⟩,
    C1_point_function_correct prgDemo 5 9 2 2 7 (by decide) (by decide)
      (by norm_num)⟩

/-! ## Claims C2 and C3 -/

theorem Create_error_code (p : DpfParameters) (e : DpfError)
    (h : Create p = Except.error e) : e.code = kInvalidArgument := by
  unfold Create at h
  split at h
  · cases h
  · cases h; rfl

theorem EvaluateNext_error_code (prg : PRG) (p : DpfParameters) (qs : List Nat)
    (c : EvaluationContext) (e : DpfError)
    (h : EvaluateNext prg p qs c = Except.error e) : e.code = kInvalidArgument := by
  unfold EvaluateNext at h
  split at h
  · cases h; rfl
  · split at h
    · cases h; rfl
    · cases h

/-- C2 fails on the code: with every allocation after the first
succeeding (the context buffer is reallocated, the output array's
`calloc` fails), `CEvaluateNext64` returns the `Internal` status code
(non-OK) yet the context buffer has been replaced by the advanced
serialized context — the pre-call bytes are gone. -/
theorem C2_counterexample :
    CEvaluateNext64 prgDemo (fun i => i == 0) (Wire.paramsW ⟨1⟩) (fun _ => 0) 1
        (Wire.ctxW ⟨⟨false, 0, false, [⟨0, false, false⟩], 0⟩, 0, [([], ⟨0, false⟩)]⟩)
      = some ⟨kInternal,
          Wire.ctxW ⟨⟨false, 0, false, [⟨0, false, false⟩], 0⟩, 1, [([false], ⟨1, true⟩)]⟩,
          some 1, none, some "fail to allocate memory for expanded vector"⟩
    ∧ kInternal ≠ kOk
    ∧ Wire.ctxW (⟨⟨false, 0, false, [⟨0, false, false⟩], 0⟩, 1,
          [([false], ⟨1, true⟩)]⟩ : EvaluationContext)
      ≠ Wire.ctxW ⟨⟨false, 0, false, [⟨0, false, false⟩], 0⟩, 0, [([], ⟨0, false⟩)]⟩ := by
  refine ⟨by decide, by decide, by decide⟩

/-- C2 as amended: on every non-OK return of `CEvaluateNext64` the
output array is not populated, and the context buffer still holds the
pre-call bytes unless the status is `Internal` — the `Internal` failures
of the post-evaluation reallocation and of the output `calloc` can
leave the context buffer freed or already replaced by the advanced
context. -/
theorem C2_error_no_output_amended (prg : PRG) (alloc : Alloc) (param : Wire)
    (pfn : Nat → Nat) (n : Int) (w : Wire) (r : CEvalOut)
    (hr : CEvaluateNext64 prg alloc param pfn n w = some r)
    (hs : r.status ≠ kOk) :
    r.vec = none ∧ (r.status = kInternal ∨ r.ctxBuf = w) := by
  cases hp : parseParams param with
  | none =>
    simp only [CEvaluateNext64, hp] at hr
    injection hr with hr; subst hr
    exact ⟨rfl, Or.inr rfl⟩
  | some p0 =>
    cases hc : Create p0 with
    | error e =>
      simp only [CEvaluateNext64, hp, hc] at hr
      injection hr with hr; subst hr
      exact ⟨rfl, Or.inr rfl⟩
    | ok u =>
      cases hm : mkPrefixes pfn n with
      | none =>
        simp only [CEvaluateNext64, hp, hc, hm] at hr
        cases hr
      | some qs =>
        cases hcx : parseCtx w with
        | none =>
          simp only [CEvaluateNext64, hp, hc, hm, hcx] at hr
          injection hr with hr; subst hr
          exact ⟨rfl, Or.inr rfl⟩
        | some c =>
          cases he : EvaluateNext prg p0 qs c with
          | error e =>
            simp only [CEvaluateNext64, hp, hc, hm, hcx, he] at hr
            injection hr with hr; subst hr
            exact ⟨rfl, Or.inr rfl⟩
          | ok res =>
            cases h0 : alloc 0 with
            | false =>
              simp only [CEvaluateNext64, hp, hc, hm, hcx, he, h0,
                Bool.false_eq_true, if_false] at hr
              injection hr with hr; subst hr
              exact ⟨rfl, Or.inl rfl⟩
            | true =>
              cases h1 : alloc 1 with
              | false =>
                simp only [CEvaluateNext64, hp, hc, hm, hcx, he, h0, h1,
                  Bool.false_eq_true, if_true, if_false] at hr
                injection hr with hr; subst hr
                exact ⟨rfl, Or.inl rfl⟩
              | true =>
                simp only [CEvaluateNext64, hp, hc, hm, hcx, he, h0, h1,
                  if_true] at hr
                injection hr with hr; subst hr
                exact absurd rfl hs

/-- Witness for the amended C2: a concrete call failing at the
parameters-parse step returns `InvalidArgument` with no output and the
context buffer untouched. -/
theorem C2_error_no_output_amended_witness :
    CEvaluateNext64 prgDemo allocT (Wire.rawW []) (fun _ => 0) 0 (Wire.rawW [7])
        = some ⟨kInvalidArgument, Wire.rawW [7], none, none,
            some "fail to parse DpfParameter"⟩
    ∧ (kInvalidArgument ≠ kOk)
    ∧ ((⟨kInvalidArgument, Wire.rawW [7], none, none,
          some "fail to parse DpfParameter"⟩ : CEvalOut).vec = none
        ∧ ((⟨kInvalidArgument, Wire.rawW [7], none, none,
            some "fail to parse DpfParameter"⟩ : CEvalOut).status = kInternal
          ∨ (⟨kInvalidArgument, Wire.rawW [7], none, none,
              some "fail to parse DpfParameter"⟩ : CEvalOut).ctxBuf = Wire.rawW [7])) :=
  ⟨by decide, by decide,
    C2_error_no_output_amended prgDemo allocT (Wire.rawW []) (fun _ => 0) 0
      (Wire.rawW [7]) _ (by decide) (by decide)⟩

/-- C3: calling `CEvaluateNext64` on a context already evaluated to
level `domain_bits` (the terminal state) returns the `InvalidArgument`
status code and leaves the context buffer unchanged. -/
theorem C3_terminal_context_rejected (prg : PRG) (alloc : Alloc) (db : Nat)
    (pfn : Nat → Nat) (n : Int) (c : EvaluationContext)
    (hdb : 1 ≤ db) (hn : 0 ≤ n) (hmax : n ≤ 2 ^ 31 - 1) (hlvl : c.level = db) :
    CEvaluateNext64 prg alloc (Wire.paramsW ⟨db⟩) pfn n (Wire.ctxW c)
      = some ⟨kInvalidArgument, Wire.ctxW c, none, none,
          some "this context has already been fully evaluated"⟩ := by
  have hmk : mkPrefixes pfn n = some ((List.range n.toNat).map pfn) := by
    unfold mkPrefixes
    rw [if_neg (Int.not_lt.mpr hn), if_neg (Int.not_lt.mpr hmax)]
  simp [CEvaluateNext64, parseParams, parseCtx, Create, hdb, hmk,
    EvaluateNext, hlvl]

/-- Witness for C3: a concrete terminal context (1-bit domain, level
already 1) is rejected with `InvalidArgument` and the buffer kept. -/
theorem C3_terminal_context_rejected_witness :
    (1 ≤ 1 ∧ (0 : Int) ≤ 0 ∧ (0 : Int) ≤ 2 ^ 31 - 1 ∧
        (⟨⟨false, 0, false, [⟨0, false, false⟩], 0⟩, 1,
          [([false], ⟨1, true⟩)]⟩ : EvaluationContext).level = 1) ∧
      CEvaluateNext64 prgDemo allocT (Wire.paramsW ⟨1⟩) (fun _ => 0) 0
          (Wire.ctxW ⟨⟨false, 0, false, [⟨0, false, false⟩], 0⟩, 1,
            [([false], ⟨1, true⟩)]⟩)
        = some ⟨kInvalidArgument,
            Wire.ctxW ⟨⟨false, 0, false, [⟨0, false, false⟩], 0⟩, 1,
              [([false], ⟨1, true⟩)]⟩,
            none, none, some "this context has already been fully evaluated"⟩ :=
  ⟨⟨by decide, by decide, by decide, by decide⟩,
    C3_terminal_context_rejected prgDemo allocT 1 (fun _ => 0) 0
      ⟨⟨false, 0, false, [⟨0, false, false⟩], 0⟩, 1, [([false], ⟨1, true⟩)]⟩
      (by decide) (by decide) (by decide) (by decide)⟩

/-! ## Claims C4 and C5 -/

/-- C4: the prefixes are forwarded to the evaluator in order and
without deduplication — exactly `n` of them, the i-th forwarded value
being the (value-preserving) widening of `prefixes[i]` — and on success
the output vector holds one value per evaluator result, the i-th entry
being the i-th result, so output order matches input prefix order. -/
theorem C4_order_preserved (prg : PRG) (db : Nat) (pfn : Nat → Nat) (n : Int)
    (c : EvaluationContext) (hdb : 1 ≤ db) (hn : 0 ≤ n) (hmax : n ≤ 2 ^ 31 - 1)
    (hlvl : c.level < db) (hq : ∀ i, i < n.toNat → pfn i < 2 ^ db) :
    mkPrefixes pfn n = some ((List.range n.toNat).map pfn) ∧
      ((List.range n.toNat).map pfn).length = n.toNat ∧
      (∀ i, i < n.toNat → ((List.range n.toNat).map pfn)[i]? = some (pfn i)) ∧
      CEvaluateNext64 prg allocT (Wire.paramsW ⟨db⟩) pfn n (Wire.ctxW c)
        = some ⟨kOk,
            Wire.ctxW ⟨c.key, db,
              ((List.range n.toNat).map pfn).map (fun q =>
                (toBits db q,
                  evalPath prg c.key.cws (toBits db q)
                    ⟨c.key.root_seed, c.key.root_control⟩))⟩,
            some n.toNat,
            some (((List.range n.toNat).map pfn).map (fun q =>
              (evalLeafOut prg c.key (toBits db q)).val)),
            none⟩ ∧
      (∀ i, i < n.toNat →
        (((List.range n.toNat).map pfn).map (fun q =>
            (evalLeafOut prg c.key (toBits db q)).val))[i]?
          = some ((evalLeafOut prg c.key (toBits db (pfn i))).val)) := by
  have hmk : mkPrefixes pfn n = some ((List.range n.toNat).map pfn) := by
    unfold mkPrefixes
    rw [if_neg (Int.not_lt.mpr hn), if_neg (Int.not_lt.mpr hmax)]
  have hany : (((List.range n.toNat).map pfn).any fun q => 2 ^ db ≤ q) = false := by
    simp only [List.any_eq_false, List.mem_map, List.mem_range]
    rintro x ⟨i, hi, rfl⟩
    simpa using Nat.not_le.mpr (hq i hi)
  have hnext :
      EvaluateNext prg ⟨db⟩ ((List.range n.toNat).map pfn) c
        = Except.ok
            (((List.range n.toNat).map pfn).map (fun q =>
                evalLeafOut prg c.key (toBits db q)),
              ⟨c.key, db,
                ((List.range n.toNat).map pfn).map (fun q =>
                  (toBits db q,
                    evalPath prg c.key.cws (toBits db q)
                      ⟨c.key.root_seed, c.key.root_control⟩))⟩) := by
    simp [EvaluateNext, Nat.not_le.mpr hlvl, hany]
  refine ⟨hmk, by simp, ?_, ?_, ?_⟩
  · intro i hi
    simp [List.getElem?_map, List.getElem?_range, hi]
  · simp [CEvaluateNext64, parseParams, parseCtx, Create, hdb, allocT, hmk, hnext,
      List.map_map, Function.comp]
  · intro i hi
    simp [List.getElem?_map, List.getElem?_range, hi]

/-- Witness for C4 with duplicate prefixes: three copies of the prefix
1 in a 1-bit domain are forwarded in order and produce three outputs in
the same order. -/
theorem C4_order_preserved_witness :
    (1 ≤ 1 ∧ (0 : Int) ≤ 3 ∧ (3 : Int) ≤ 2 ^ 31 - 1 ∧
        (⟨⟨false, 0, false, [⟨0, false, false⟩], 0⟩, 0,
          [([], ⟨0, false⟩)]⟩ : EvaluationContext).level < 1 ∧
        ∀ i, i < (3 : Int).toNat → (fun _ => 1) i < 2 ^ 1) ∧
      (mkPrefixes (fun _ => 1) 3
          = some ((List.range (3 : Int).toNat).map (fun _ => 1)) ∧
        ((List.range (3 : Int).toNat).map (fun _ => 1)).length = (3 : Int).toNat ∧
        (∀ i, i < (3 : Int).toNat →
          ((List.range (3 : Int).toNat).map (fun _ => 1))[i]?
            = some ((fun _ => 1) i)) ∧
        CEvaluateNext64 prgDemo allocT (Wire.paramsW ⟨1⟩) (fun _ => 1) 3
            (Wire.ctxW ⟨⟨false, 0, false, [⟨0, false, false⟩], 0⟩, 0,
              [([], ⟨0, false⟩)]⟩)
          = some ⟨kOk,
              Wire.ctxW
                ⟨(⟨⟨false, 0, false, [⟨0, false, false⟩], 0⟩, 0,
                    [([], ⟨0, false⟩)]⟩ : EvaluationContext).key, 1,
                  ((List.range (3 : Int).toNat).map (fun _ => 1)).map (fun q =>
                    (toBits 1 q,
                      evalPath prgDemo
                        (⟨⟨false, 0, false, [⟨0, false, false⟩], 0⟩, 0,
                          [([], ⟨0, false⟩)]⟩ : EvaluationContext).key.cws
                        (toBits 1 q)
                        ⟨(⟨⟨false, 0, false, [⟨0, false, false⟩], 0⟩, 0,
                            [([], ⟨0, false⟩)]⟩ : EvaluationContext).key.root_seed,
                          (⟨⟨false, 0, false, [⟨0, false, false⟩], 0⟩, 0,
                            [([], ⟨0, false⟩)]⟩ :
                              EvaluationContext).key.root_control⟩))⟩,
              some (3 : Int).toNat,
              some (((List.range (3 : Int).toNat).map (fun _ => 1)).map (fun q =>
                (evalLeafOut prgDemo
                    (⟨⟨false, 0, false, [⟨0, false, false⟩], 0⟩, 0,
                      [([], ⟨0, false⟩)]⟩ : EvaluationContext).key
                    (toBits 1 q)).val)),
              none⟩ ∧
        (∀ i, i < (3 : Int).toNat →
          (((List.range (3 : Int).toNat).map (fun _ => 1)).map (fun q =>
              (evalLeafOut prgDemo
                  (⟨⟨false, 0, false, [⟨0, false, false⟩], 0⟩, 0,
                    [([], ⟨0, false⟩)]⟩ : EvaluationContext).key
                  (toBits 1 q)).val))[i]?
            = some ((evalLeafOut prgDemo
                (⟨⟨false, 0, false, [⟨0, false, false⟩], 0⟩, 0,
                  [([], ⟨0, false⟩)]⟩ : EvaluationContext).key
                (toBits 1 ((fun _ => 1) i))).val))) :=
  ⟨⟨by decide, by decide, by decide, by decide,
      by intro i _; exact (by decide : (1 : Nat) < 2 ^ 1)⟩,
    C4_order_preserved prgDemo 1 (fun _ => 1) 3
      ⟨⟨false, 0, false, [⟨0, false, false⟩], 0⟩, 0, [([], ⟨0, false⟩)]⟩
      (by decide) (by decide) (by decide) (by decide)
      (by intro i _; exact (by decide : (1 : Nat) < 2 ^ 1))⟩

/-- C5: every OK return of `CEvaluateNext64` delivers both the outputs
and the updated context: the context buffer holds exactly the
serialization of the context as advanced by this call (so a subsequent
call on that buffer decodes the advanced state, not the pre-call one),
and the output vector holds the evaluator's results. -/
theorem C5_context_advanced_on_ok (prg : PRG) (alloc : Alloc) (param : Wire)
    (pfn : Nat → Nat) (n : Int) (w : Wire) (r : CEvalOut)
    (hr : CEvaluateNext64 prg alloc param pfn n w = some r)
    (hs : r.status = kOk) :
    ∃ (p0 : DpfParameters) (c : EvaluationContext) (qs : List Nat)
      (res : List (ZMod M) × EvaluationContext),
      parseParams param = some p0 ∧
        parseCtx w = some c ∧
        mkPrefixes pfn n = some qs ∧
        EvaluateNext prg p0 qs c = Except.ok res ∧
        r.ctxBuf = Wire.ctxW res.2 ∧
        parseCtx r.ctxBuf = some res.2 ∧
        r.vec = some (res.1.map ZMod.val) := by
  cases hp : parseParams param with
  | none =>
    simp only [CEvaluateNext64, hp] at hr
    injection hr with hr; subst hr
    exact absurd hs (by simp [kInvalidArgument, kOk])
  | some p0 =>
    cases hc : Create p0 with
    | error e =>
      simp only [CEvaluateNext64, hp, hc] at hr
      injection hr with hr; subst hr
      have := Create_error_code p0 e hc
      simp only [CEvalOut.status] at hs
      rw [hs] at this
      exact absurd this (by simp [kInvalidArgument, kOk])
    | ok u =>
      cases hm : mkPrefixes pfn n with
      | none =>
        simp only [CEvaluateNext64, hp, hc, hm] at hr
        cases hr
      | some qs =>
        cases hcx : parseCtx w with
        | none =>
          simp only [CEvaluateNext64, hp, hc, hm, hcx] at hr
          injection hr with hr; subst hr
          exact absurd hs (by simp [kInvalidArgument, kOk])
        | some c =>
          cases he : EvaluateNext prg p0 qs c with
          | error e =>
            simp only [CEvaluateNext64, hp, hc, hm, hcx, he] at hr
            injection hr with hr; subst hr
            have := EvaluateNext_error_code prg p0 qs c e he
            simp only [CEvalOut.status] at hs
            rw [hs] at this
            exact absurd this (by simp [kInvalidArgument, kOk])
          | ok res =>
            cases h0 : alloc 0 with
            | false =>
              simp only [CEvaluateNext64, hp, hc, hm, hcx, he, h0,
                Bool.false_eq_true, if_false] at hr
              injection hr with hr; subst hr
              exact absurd hs (by simp [kInternal, kOk])
            | true =>
              cases h1 : alloc 1 with
              | false =>
                simp only [CEvaluateNext64, hp, hc, hm, hcx, he, h0, h1,
                  Bool.false_eq_true, if_true, if_false] at hr
                injection hr with hr; subst hr
                exact absurd hs (by simp [kInternal, kOk])
              | true =>
                simp only [CEvaluateNext64, hp, hc, hm, hcx, he, h0, h1,
                  if_true] at hr
                injection hr with hr; subst hr
                exact ⟨p0, c, qs, res, rfl, rfl, rfl, he, rfl, rfl, rfl⟩

/-- Witness for C5: a concrete OK call whose context buffer afterwards
decodes to the advanced (level-1) context. -/
theorem C5_context_advanced_on_ok_witness :
    CEvaluateNext64 prgDemo allocT (Wire.paramsW ⟨1⟩) (fun _ => 0) 1
        (Wire.ctxW ⟨⟨false, 0, false, [⟨0, false, false⟩], 0⟩, 0, [([], ⟨0, false⟩)]⟩)
      = some ⟨kOk,
          Wire.ctxW ⟨⟨false, 0, false, [⟨0, false, false⟩], 0⟩, 1,
            [([false], ⟨1, true⟩)]⟩,
          some 1, some [1], none⟩
    ∧ (∃ (p0 : DpfParameters) (c : EvaluationContext) (qs : List Nat)
        (res : List (ZMod M) × EvaluationContext),
        parseParams (Wire.paramsW ⟨1⟩) = some p0 ∧
          parseCtx (Wire.ctxW ⟨⟨false, 0, false, [⟨0, false, false⟩], 0⟩, 0,
            [([], ⟨0, false⟩)]⟩) = some c ∧
          mkPrefixes (fun _ => 0) 1 = some qs ∧
          EvaluateNext prgDemo p0 qs c = Except.ok res ∧
          (⟨kOk, Wire.ctxW ⟨⟨false, 0, false, [⟨0, false, false⟩], 0⟩, 1,
              [([false], ⟨1, true⟩)]⟩, some 1, some [1], none⟩ : CEvalOut).ctxBuf
            = Wire.ctxW res.2 ∧
          parseCtx (⟨kOk, Wire.ctxW ⟨⟨false, 0, false, [⟨0, false, false⟩], 0⟩, 1,
              [([false], ⟨1, true⟩)]⟩, some 1, some [1], none⟩ : CEvalOut).ctxBuf
            = some res.2 ∧
          (⟨kOk, Wire.ctxW ⟨⟨false, 0, false, [⟨0, false, false⟩], 0⟩, 1,
              [([false], ⟨1, true⟩)]⟩, some 1, some [1], none⟩ : CEvalOut).vec
            = some (res.1.map ZMod.val)) :=
  ⟨by decide,
    C5_context_advanced_on_ok prgDemo allocT (Wire.paramsW ⟨1⟩) (fun _ => 0) 1
      (Wire.ctxW ⟨⟨false, 0, false, [⟨0, false, false⟩], 0⟩, 0, [([], ⟨0, false⟩)]⟩)
      _ (by decide) (by decide)⟩

/-! ## Claims C6, C7 and C8 -/

/-- C6: every input buffer that fails to decode into the expected
structure — the parameters buffer in any of the three operations, the
key buffer in `CCreateEvaluationContext`, the context buffer in
`CEvaluateNext64` — makes the operation return the `InvalidArgument`
status code together with a human-readable message in `out_error`. -/
theorem C6_parse_failures_invalid_argument (prg : PRG) (alloc : Alloc)
    (s0 s1 alpha beta : Nat) (pfn : Nat → Nat) (n : Int)
    (p : DpfParameters) (wbad kbad cbad k w : Wire)
    (hdb : 1 ≤ p.domain_bits) (hn : 0 ≤ n) (hmax : n ≤ 2 ^ 31 - 1)
    (hw : parseParams wbad = none) (hk : parseKey kbad = none)
    (hc : parseCtx cbad = none) :
    CGenerateKeys prg alloc s0 s1 wbad alpha beta
        = ⟨kInvalidArgument, none, none, some "fail to parse DpfParameter"⟩ ∧
      CCreateEvaluationContext alloc wbad k
        = ⟨kInvalidArgument, none, some "fail to parse DpfParameter"⟩ ∧
      CCreateEvaluationContext alloc (Wire.paramsW p) kbad
        = ⟨kInvalidArgument, none, some "fail to parse DpfKey"⟩ ∧
      CEvaluateNext64 prg alloc wbad pfn n w
        = some ⟨kInvalidArgument, w, none, none,
            some "fail to parse DpfParameter"⟩ ∧
      CEvaluateNext64 prg alloc (Wire.paramsW p) pfn n cbad
        = some ⟨kInvalidArgument, cbad, none, none,
            some "fail to parse EvaluationContext"⟩ := by
  refine ⟨?_, ?_, ?_, ?_, ?_⟩
  · simp [CGenerateKeys, hw]
  · simp [CCreateEvaluationContext, hw]
  · simp [CCreateEvaluationContext, parseParams, Create, hdb, hk]
  · simp [CEvaluateNext64, hw]
  · have hmk : mkPrefixes pfn n = some ((List.range n.toNat).map pfn) := by
      unfold mkPrefixes
      rw [if_neg (Int.not_lt.mpr hn), if_neg (Int.not_lt.mpr hmax)]
    simp [CEvaluateNext64, parseParams, Create, hdb, hmk, hc]

/-- Witness for C6: raw buffers decode as none of the expected
messages and are rejected with `InvalidArgument` at every site. -/
theorem C6_parse_failures_invalid_argument_witness :
    (1 ≤ (⟨1⟩ : DpfParameters).domain_bits ∧ (0 : Int) ≤ 0 ∧
        (0 : Int) ≤ 2 ^ 31 - 1 ∧
        parseParams (Wire.rawW [1]) = none ∧ parseKey (Wire.rawW [2]) = none ∧
        parseCtx (Wire.rawW [3]) = none) ∧
      (CGenerateKeys prgDemo allocT 0 0 (Wire.rawW [1]) 0 0
          = ⟨kInvalidArgument, none, none, some "fail to parse DpfParameter"⟩ ∧
        CCreateEvaluationContext allocT (Wire.rawW [1]) (Wire.rawW [2])
          = ⟨kInvalidArgument, none, some "fail to parse DpfParameter"⟩ ∧
        CCreateEvaluationContext allocT (Wire.paramsW ⟨1⟩) (Wire.rawW [2])
          = ⟨kInvalidArgument, none, some "fail to parse DpfKey"⟩ ∧
        CEvaluateNext64 prgDemo allocT (Wire.rawW [1]) (fun _ => 0) 0
            (Wire.rawW [3])
          = some ⟨kInvalidArgument, Wire.rawW [3], none, none,
              some "fail to parse DpfParameter"⟩ ∧
        CEvaluateNext64 prgDemo allocT (Wire.paramsW ⟨1⟩) (fun _ => 0) 0
            (Wire.rawW [3])
          = some ⟨kInvalidArgument, Wire.rawW [3], none, none,
              some "fail to parse EvaluationContext"⟩) :=
  ⟨⟨by decide, by decide, by decide, by decide, by decide, by decide⟩,
    C6_parse_failures_invalid_argument prgDemo allocT 0 0 0 0 (fun _ => 0) 0
      ⟨1⟩ (Wire.rawW [1]) (Wire.rawW [2]) (Wire.rawW [3]) (Wire.rawW [2])
      (Wire.rawW [3]) (by decide) (by decide) (by decide) (by decide) (by decide)
      (by decide)⟩

/-- C7: when key generation succeeds but the allocation/serialization
of either generated key into its out-buffer fails, `CGenerateKeys`
returns the `Internal` status code with the message
"fail to copy DpfKey", and the key pair is not returned (at least one
of the two out-buffers is left unpopulated). -/
theorem C7_key_copy_failure_internal (prg : PRG) (alloc : Alloc)
    (s0 s1 db alpha beta : Nat) (hdb : 1 ≤ db) (ha : alpha < 2 ^ db)
    (hfail : alloc 0 = false ∨ alloc 1 = false) :
    (CGenerateKeys prg alloc s0 s1 (Wire.paramsW ⟨db⟩) alpha beta).status
        = kInternal ∧
      (CGenerateKeys prg alloc s0 s1 (Wire.paramsW ⟨db⟩) alpha beta).err
        = some "fail to copy DpfKey" ∧
      ((CGenerateKeys prg alloc s0 s1 (Wire.paramsW ⟨db⟩) alpha beta).key1 = none
        ∨ (CGenerateKeys prg alloc s0 s1 (Wire.paramsW ⟨db⟩) alpha beta).key2
          = none) := by
  have hgen := generateKeys_ok prg db s0 s1 alpha beta ha
  cases h0 : alloc 0 with
  | false =>
    refine ⟨?_, ?_, Or.inl ?_⟩ <;>
      simp [CGenerateKeys, parseParams, Create, hdb, hgen, h0]
  | true =>
    cases h1 : alloc 1 with
    | false =>
      refine ⟨?_, ?_, Or.inr ?_⟩ <;>
        simp [CGenerateKeys, parseParams, Create, hdb, hgen, h0, h1]
    | true => simp_all

/-- Witness for C7: with the second allocation failing, the concrete
call returns `Internal`, the message, and no second key. -/
theorem C7_key_copy_failure_internal_witness :
    (1 ≤ 1 ∧ 0 < 2 ^ 1 ∧
        ((fun i => i == 0) 0 = false ∨ (fun i => i == 0) 1 = false)) ∧
      ((CGenerateKeys prgDemo (fun i => i == 0) 3 4 (Wire.paramsW ⟨1⟩) 0 2).status
          = kInternal ∧
        (CGenerateKeys prgDemo (fun i => i == 0) 3 4 (Wire.paramsW ⟨1⟩) 0 2).err
          = some "fail to copy DpfKey" ∧
        ((CGenerateKeys prgDemo (fun i => i == 0) 3 4 (Wire.paramsW ⟨1⟩) 0 2).key1
            = none
          ∨ (CGenerateKeys prgDemo (fun i => i == 0) 3 4
              (Wire.paramsW ⟨1⟩) 0 2).key2 = none)) :=
  ⟨⟨by decide, by decide, Or.inr (by decide)⟩,
    C7_key_copy_failure_internal prgDemo (fun i => i == 0) 3 4 1 0 2
      (by decide) (by decide) (Or.inr (by decide))⟩

/-- C8: for valid parameters (positive domain bit-length) key
generation succeeds at alpha = 0, at alpha = 2^domain_bits - 1 and for
a 1-bit domain, and fails with `InvalidArgument` for every
alpha ≥ 2^domain_bits. -/
theorem C8_alpha_range_boundary (prg : PRG) (s0 s1 db beta : Nat) (hdb : 1 ≤ db) :
    (CGenerateKeys prg allocT s0 s1 (Wire.paramsW ⟨db⟩) 0 beta).status = kOk ∧
      (CGenerateKeys prg allocT s0 s1 (Wire.paramsW ⟨db⟩) (2 ^ db - 1) beta).status
        = kOk ∧
      (CGenerateKeys prg allocT s0 s1 (Wire.paramsW ⟨1⟩) 0 beta).status = kOk ∧
      (CGenerateKeys prg allocT s0 s1 (Wire.paramsW ⟨1⟩) 1 beta).status = kOk ∧
      ∀ alpha, 2 ^ db ≤ alpha →
        (CGenerateKeys prg allocT s0 s1 (Wire.paramsW ⟨db⟩) alpha beta).status
            = kInvalidArgument ∧
          (CGenerateKeys prg allocT s0 s1 (Wire.paramsW ⟨db⟩) alpha beta).err
            = some "alpha must be smaller than the domain size" := by
  have hpos : 0 < 2 ^ db := by positivity
  have hsub : 2 ^ db - 1 < 2 ^ db := Nat.sub_lt hpos one_pos
  refine ⟨?_, ?_, ?_, ?_, ?_⟩
  · simp [CGenerateKeys, parseParams, Create, hdb, allocT,
      generateKeys_ok prg db s0 s1 0 beta hpos]
  · simp [CGenerateKeys, parseParams, Create, hdb, allocT,
      generateKeys_ok prg db s0 s1 (2 ^ db - 1) beta hsub]
  · simp [CGenerateKeys, parseParams, Create, allocT,
      generateKeys_ok prg 1 s0 s1 0 beta (by norm_num)]
  · simp [CGenerateKeys, parseParams, Create, allocT,
      generateKeys_ok prg 1 s0 s1 1 beta (by norm_num)]
  · intro alpha hge
    constructor <;>
      simp [CGenerateKeys, parseParams, Create, hdb, GenerateKeys,
        Nat.not_lt.mpr hge]

/-- Witness for C8 at a 2-bit domain: alpha 0 and 3 succeed, the 1-bit
domain succeeds, and alpha = 4 is rejected. -/
theorem C8_alpha_range_boundary_witness :
    (1 ≤ 2) ∧
      ((CGenerateKeys prgDemo allocT 5 9 (Wire.paramsW ⟨2⟩) 0 7).status = kOk ∧
        (CGenerateKeys prgDemo allocT 5 9 (Wire.paramsW ⟨2⟩) (2 ^ 2 - 1) 7).status
          = kOk ∧
        (CGenerateKeys prgDemo allocT 5 9 (Wire.paramsW ⟨1⟩) 0 7).status = kOk ∧
        (CGenerateKeys prgDemo allocT 5 9 (Wire.paramsW ⟨1⟩) 1 7).status = kOk ∧
        ∀ alpha, 2 ^ 2 ≤ alpha →
          (CGenerateKeys prgDemo allocT 5 9 (Wire.paramsW ⟨2⟩) alpha 7).status
              = kInvalidArgument ∧
            (CGenerateKeys prgDemo allocT 5 9 (Wire.paramsW ⟨2⟩) alpha 7).err
              = some "alpha must be smaller than the domain size") :=
  ⟨by decide, C8_alpha_range_boundary prgDemo 5 9 2 7 (by decide)⟩

/-! ## Claims C9 and C10 -/

/-- C9: the bridge restricts all domain indices and values to 64 bits.
Alpha, beta and each prefix are zero extended from `uint64` — a
value-preserving conversion, so every value supplied to the core is
below `2 ^ 64` (hence far below `2 ^ 128`), the i-th forwarded prefix
being exactly `prefixes[i]` — and every evaluation output is the core's
value cast to `uint64_t`, so every value observed through `out_vec` is
below `2 ^ 64`. -/
theorem C9_64bit_interface (prg : PRG) (alloc : Alloc) (w mc : Wire)
    (pfn : Nat → Nat) (n : Int) (r : CEvalOut) (qs : List Nat) (alpha beta : Nat)
    (ha : alpha < 2 ^ 64) (hb : beta < 2 ^ 64) (hpfn : ∀ i, pfn i < 2 ^ 64)
    (hq : mkPrefixes pfn n = some qs)
    (hr : CEvaluateNext64 prg alloc w pfn n mc = some r) :
    (∀ i, i < qs.length → qs[i]? = some (pfn i)) ∧
      (∀ q ∈ qs, q < 2 ^ 64) ∧
      (∀ v, r.vec = some v → ∀ x ∈ v, x < 2 ^ 64) ∧
      alpha < 2 ^ 128 ∧ beta < 2 ^ 128 := by
  have hqs : qs = (List.range n.toNat).map pfn := by
    unfold mkPrefixes at hq
    split at hq
    · cases hq
    · split at hq
      · cases hq
      · injection hq with hq
        exact hq.symm
  refine ⟨?_, ?_, ?_, ?_, ?_⟩
  · intro i hi
    subst hqs
    simp only [List.length_map, List.length_range] at hi
    simp [List.getElem?_map, List.getElem?_range, hi]
  · intro q hqm
    subst hqs
    obtain ⟨i, _, rfl⟩ := List.mem_map.mp hqm
    exact hpfn i
  · intro v hv x hx
    cases hp : parseParams w with
    | none =>
      simp only [CEvaluateNext64, hp] at hr
      injection hr with hr; subst hr
      cases hv
    | some p0 =>
      cases hc : Create p0 with
      | error e =>
        simp only [CEvaluateNext64, hp, hc] at hr
        injection hr with hr; subst hr
        cases hv
      | ok u =>
        cases hm : mkPrefixes pfn n with
        | none =>
          simp only [CEvaluateNext64, hp, hc, hm] at hr
          cases hr
        | some qs0 =>
          cases hcx : parseCtx mc with
          | none =>
            simp only [CEvaluateNext64, hp, hc, hm, hcx] at hr
            injection hr with hr; subst hr
            cases hv
          | some c =>
            cases he : EvaluateNext prg p0 qs0 c with
            | error e =>
              simp only [CEvaluateNext64, hp, hc, hm, hcx, he] at hr
              injection hr with hr; subst hr
              cases hv
            | ok res =>
              cases h0 : alloc 0 with
              | false =>
                simp only [CEvaluateNext64, hp, hc, hm, hcx, he, h0,
                  Bool.false_eq_true, if_false] at hr
                injection hr with hr; subst hr
                cases hv
              | true =>
                cases h1 : alloc 1 with
                | false =>
                  simp only [CEvaluateNext64, hp, hc, hm, hcx, he, h0, h1,
                    Bool.false_eq_true, if_true, if_false] at hr
                  injection hr with hr; subst hr
                  cases hv
                | true =>
                  simp only [CEvaluateNext64, hp, hc, hm, hcx, he, h0, h1,
                    if_true] at hr
                  injection hr with hr; subst hr
                  simp only [CEvalOut.vec, Option.some.injEq] at hv
                  subst hv
                  obtain ⟨z, _, rfl⟩ := List.mem_map.mp hx
                  exact ZMod.val_lt z
  · calc alpha < 2 ^ 64 := ha
      _ ≤ 2 ^ 128 := Nat.pow_le_pow_right (by norm_num) (by norm_num)
  · calc beta < 2 ^ 64 := hb
      _ ≤ 2 ^ 128 := Nat.pow_le_pow_right (by norm_num) (by norm_num)

/-- Witness for C9 on a concrete OK call. -/
theorem C9_64bit_interface_witness :
    (3 < 2 ^ 64 ∧ 7 < 2 ^ 64 ∧ (∀ i : Nat, (fun _ => 0) i < 2 ^ 64) ∧
        mkPrefixes (fun _ => 0) 1 = some [0] ∧
        CEvaluateNext64 prgDemo allocT (Wire.paramsW ⟨1⟩) (fun _ => 0) 1
            (Wire.ctxW ⟨⟨false, 0, false, [⟨0, false, false⟩], 0⟩, 0,
              [([], ⟨0, false⟩)]⟩)
          = some ⟨kOk,
              Wire.ctxW ⟨⟨false, 0, false, [⟨0, false, false⟩], 0⟩, 1,
                [([false], ⟨1, true⟩)]⟩,
              some 1, some [1], none⟩) ∧
      ((∀ i, i < ([0] : List Nat).length → ([0] : List Nat)[i]? = some 0) ∧
        (∀ q ∈ ([0] : List Nat), q < 2 ^ 64) ∧
        (∀ v, (⟨kOk,
            Wire.ctxW ⟨⟨false, 0, false, [⟨0, false, false⟩], 0⟩, 1,
              [([false], ⟨1, true⟩)]⟩,
            some 1, some [1], none⟩ : CEvalOut).vec = some v →
          ∀ x ∈ v, x < 2 ^ 64) ∧
        3 < 2 ^ 128 ∧ 7 < 2 ^ 128) :=
  ⟨⟨by norm_num, by norm_num, fun i => by positivity, by decide, by decide⟩,
    C9_64bit_interface prgDemo allocT (Wire.paramsW ⟨1⟩)
      (Wire.ctxW ⟨⟨false, 0, false, [⟨0, false, false⟩], 0⟩, 0, [([], ⟨0, false⟩)]⟩)
      (fun _ => 0) 1 _ [0] 3 7 (by norm_num) (by norm_num)
      (fun i => by positivity) (by decide) (by decide)⟩

/-- C10 fails on the code: `prefixes_size = 2 ^ 31` satisfies the
claimed precondition `prefixes_size ≥ 0`, yet the conversion loop is
not total there — the 32-bit `int` counter at
`distributed_point_function_c_bridge.cc:123` overflows at
`i = INT_MAX` against the `int64_t` bound (undefined behavior), so the
call has no defined result and reads no well-defined number of
elements. -/
theorem C10_counterexample :
    (0 : Int) ≤ 2 ^ 31 ∧
      mkPrefixes (fun i => i) (2 ^ 31) = none ∧
      CEvaluateNext64 prgDemo allocT (Wire.paramsW ⟨1⟩) (fun i => i) (2 ^ 31)
          (Wire.rawW []) = none ∧
      ∀ r : CEvalOut,
        CEvaluateNext64 prgDemo allocT (Wire.paramsW ⟨1⟩) (fun i => i) (2 ^ 31)
          (Wire.rawW []) ≠ some r := by
  have hcall : CEvaluateNext64 prgDemo allocT (Wire.paramsW ⟨1⟩) (fun i => i)
      (2 ^ 31) (Wire.rawW []) = none := by decide
  exact ⟨by decide, by decide, hcall, fun r hr => by rw [hcall] at hr; cases hr⟩

/-- C10 as amended: the conversion loop is total and reads exactly
`prefixes_size` elements only for `0 ≤ prefixes_size ≤ INT_MAX`
(`2 ^ 31 - 1`, the range of the 32-bit loop counter); zero elements
when the size is zero.  A negative `prefixes_size` is not rejected with
`InvalidArgument` — the prefix-vector construction is unguarded and the
call has no defined result (the unsigned element count overflows and
construction throws) — and a `prefixes_size` above `INT_MAX` is not
rejected either: the counter increment overflows signed `int`
(undefined behavior), again yielding no defined result. -/
theorem C10_size_bounds_amended (prg : PRG) (alloc : Alloc)
    (p : DpfParameters) (pfn : Nat → Nat) (n : Int) (mc : Wire)
    (hdb : 1 ≤ p.domain_bits) :
    (0 ≤ n → n ≤ 2 ^ 31 - 1 →
        mkPrefixes pfn n = some ((List.range n.toNat).map pfn) ∧
        ((List.range n.toNat).map pfn).length = n.toNat) ∧
      (n = 0 → mkPrefixes pfn n = some []) ∧
      (n < 0 → mkPrefixes pfn n = none ∧
        CEvaluateNext64 prg alloc (Wire.paramsW p) pfn n mc = none ∧
        ∀ r : CEvalOut,
          CEvaluateNext64 prg alloc (Wire.paramsW p) pfn n mc ≠ some r) ∧
      (2 ^ 31 - 1 < n → mkPrefixes pfn n = none ∧
        CEvaluateNext64 prg alloc (Wire.paramsW p) pfn n mc = none ∧
        ∀ r : CEvalOut,
          CEvaluateNext64 prg alloc (Wire.paramsW p) pfn n mc ≠ some r) := by
  refine ⟨?_, ?_, ?_, ?_⟩
  · intro hn hmax
    constructor
    · unfold mkPrefixes
      rw [if_neg (Int.not_lt.mpr hn), if_neg (Int.not_lt.mpr hmax)]
    · simp
  · intro hz
    subst hz
    simp [mkPrefixes]
  · intro hneg
    have hmk : mkPrefixes pfn n = none := by simp [mkPrefixes, hneg]
    have hcall : CEvaluateNext64 prg alloc (Wire.paramsW p) pfn n mc = none := by
      simp [CEvaluateNext64, parseParams, Create, hdb, hmk]
    exact ⟨hmk, hcall, fun r hr => by rw [hcall] at hr; cases hr⟩
  · intro hbig
    have hmk : mkPrefixes pfn n = none := by
      have h0 : (0 : Int) ≤ 2 ^ 31 - 1 := by norm_num
      have hn : ¬ n < 0 := Int.not_lt.mpr (le_trans h0 (le_of_lt hbig))
      unfold mkPrefixes
      rw [if_neg hn, if_pos hbig]
    have hcall : CEvaluateNext64 prg alloc (Wire.paramsW p) pfn n mc = none := by
      simp [CEvaluateNext64, parseParams, Create, hdb, hmk]
    exact ⟨hmk, hcall, fun r hr => by rw [hcall] at hr; cases hr⟩

/-- Witness for the amended C10 at size -1 (the negative clause
concrete; the in-range and above-INT_MAX clauses are vacuous at this
size and exercised by the counterexample at `2 ^ 31`). -/
theorem C10_size_bounds_amended_witness :
    (1 ≤ (⟨1⟩ : DpfParameters).domain_bits) ∧
      ((0 ≤ (-1 : Int) → (-1 : Int) ≤ 2 ^ 31 - 1 →
          mkPrefixes (fun i => i) (-1)
              = some ((List.range (-1 : Int).toNat).map (fun i => i)) ∧
            ((List.range (-1 : Int).toNat).map (fun i => i)).length
              = (-1 : Int).toNat) ∧
        ((-1 : Int) = 0 → mkPrefixes (fun i => i) (-1) = some []) ∧
        ((-1 : Int) < 0 → mkPrefixes (fun i => i) (-1) = none ∧
          CEvaluateNext64 prgDemo allocT (Wire.paramsW ⟨1⟩) (fun i => i) (-1)
              (Wire.rawW []) = none ∧
          ∀ r : CEvalOut,
            CEvaluateNext64 prgDemo allocT (Wire.paramsW ⟨1⟩) (fun i => i) (-1)
              (Wire.rawW []) ≠ some r) ∧
        ((2 : Int) ^ 31 - 1 < -1 → mkPrefixes (fun i => i) (-1) = none ∧
          CEvaluateNext64 prgDemo allocT (Wire.paramsW ⟨1⟩) (fun i => i) (-1)
              (Wire.rawW []) = none ∧
          ∀ r : CEvalOut,
            CEvaluateNext64 prgDemo allocT (Wire.paramsW ⟨1⟩) (fun i => i) (-1)
              (Wire.rawW []) ≠ some r)) :=
  ⟨by decide,
    C10_size_bounds_amended prgDemo allocT ⟨1⟩ (fun i => i) (-1)
      (Wire.rawW []) (by decide)⟩

end ConvAgg
